import Mathlib

/-!
Verification of the console/notebook widget layer of this repository.

The definitions below are a shallow embedding of the TypeScript sources:

* `ConsoleHistory` embeds the code console history manager
  (class ConsoleHistory): an ordered log of command strings together with a
  navigation cursor, with operations back, forward, push and onHistory.
  The phosphor Vector is embedded as a Lean List; Vector.at on an out of
  range or negative index yields undefined, embedded as Option.none.
* `ConsolePanel` embeds the close request handler of the code console panel
  (class ConsolePanel, onCloseRequest), with the promise chain made explicit
  as an Except value: a rejected step skips every following fulfillment
  handler, since the source attaches no rejection handler.
* `NotebookW` embeds the interactive Notebook widget state (mode, active
  cell index, selection flags) and the handlers for the mode and
  activeCellIndex setters and for editor edge requests.
* `StaticNB` embeds the cell list reconciliation of StaticNotebook:
  the structural change handler onCellsChanged together with the phosphor
  PanelLayout insertWidget semantics (insertion of a fresh widget, or a
  relocation when the widget is already attached).

Object identity of widgets is embedded as a natural number id; fresh ids
are drawn from a counter where widgets are constructed.
-/

set_option autoImplicit false

namespace ConsoleHistory

/-- Embedding of phosphor Vector.at with a JavaScript style index: a
negative or out of range index yields undefined (none). -/
def vecAt (l : List String) (i : Int) : Option String :=
  if 0 ≤ i then l.get? i.toNat else none

/-- The state of a ConsoleHistory object that is not disposed: the private
fields of the source class, with the phosphor Vector as a List. -/
structure HState where
  log : List String
  cursor : Int
  deriving DecidableEq

/-- The state built by the ConsoleHistory constructor: an empty vector and
cursor zero. -/
def histInit : HState := ⟨[], 0⟩

/-- Embedding of ConsoleHistory.back: read the entry at the decremented
cursor, then clamp the cursor below by zero.  The returned Option is the
value the promise resolves with (none embeds undefined). -/
def back (s : HState) : Option String × HState :=
  let c := s.cursor - 1
  (vecAt s.log c, { s with cursor := max 0 c })

/-- Embedding of ConsoleHistory.forward: read the entry at the incremented
cursor, then clamp the cursor above by the log length. -/
def forward (s : HState) : Option String × HState :=
  let c := s.cursor + 1
  (vecAt s.log c, { s with cursor := min (s.log.length : Int) c })

/-- Embedding of ConsoleHistory.push: append the item when it is truthy
(nonempty) and differs from the last entry, then reset the cursor to the
log length.  Vector.back of an empty vector is undefined, and a string is
never identical to undefined, so the comparison is against getLast?. -/
def push (s : HState) (item : String) : HState :=
  let log' := if item ≠ "" ∧ s.log.getLast? ≠ some item then s.log ++ [item] else s.log
  { log := log', cursor := (log'.length : Int) }

/-- Embedding of the loop body of ConsoleHistory.onHistory: walk the input
texts keeping a running last value, appending exactly those entries that
differ from the running last value. -/
def dedupFrom (last : String) : List String → List String
  | [] => []
  | x :: xs => if x = last then dedupFrom last xs else x :: dedupFrom x xs

/-- Embedding of ConsoleHistory.onHistory: replace the whole log by the
third components of the reply entries with the running comparison started
at the empty string, and reset the cursor to the new length.  A history
entry is a triple (session, line, input). -/
def onHistory (entries : List (Nat × Nat × String)) : HState :=
  let log := dedupFrom "" (entries.map (fun e => e.2.2))
  { log := log, cursor := (log.length : Int) }

/-- A navigation step: back or forward. -/
inductive NavOp where
  | back
  | forward
  deriving DecidableEq

/-- Apply one navigation step, discarding the resolved value. -/
def navStep (s : HState) : NavOp → HState
  | .back => (back s).2
  | .forward => (forward s).2

/-- Apply a sequence of navigation steps. -/
def navRun (s : HState) (ops : List NavOp) : HState :=
  ops.foldl navStep s

/-- The cursor bound invariant of the history: the cursor lies in the
closed interval from zero to the log length. -/
def cursorInBounds (s : HState) : Prop :=
  0 ≤ s.cursor ∧ s.cursor ≤ (s.log.length : Int)

instance (s : HState) : Decidable (cursorInBounds s) := by
  unfold cursorInBounds; infer_instance

/-- A Bool valued check that a list has no two adjacent equal entries. -/
def noAdjDup : List String → Bool
  | [] => true
  | [_] => true
  | a :: b :: rest => decide (a ≠ b) && noAdjDup (b :: rest)

/-- Contiguous duplicate collapse of a list, keeping the first entry of
every run: the duplicate collapse the specification describes. -/
def dedupContig : List String → List String
  | [] => []
  | x :: xs => x :: dedupFrom x xs

/-- Apply a sequence of push calls. -/
def pushAll (s : HState) (items : List String) : HState :=
  items.foldl push s

end ConsoleHistory

namespace ConsoleHistory

theorem getLast?_as_get? : ∀ (l : List String), l.getLast? = l.get? (l.length - 1)
  | [] => rfl
  | [_] => rfl
  | a :: b :: t => by
    have ih := getLast?_as_get? (b :: t)
    simp only [List.getLast?_cons_cons, ih]
    simp [List.length_cons]

theorem vecAt_last (l : List String) : vecAt l ((l.length : Int) - 1) = l.getLast? := by
  cases l with
  | nil => rfl
  | cons a t =>
    have h0 : (0:Int) ≤ ((a :: t).length : Int) - 1 := by
      simp only [List.length_cons]; omega
    have h1 : (((a :: t).length : Int) - 1).toNat = (a :: t).length - 1 := by omega
    rw [vecAt, if_pos h0, h1, getLast?_as_get?]

theorem navStep_bounds (s : HState) (op : NavOp) (h : cursorInBounds s) :
    cursorInBounds (navStep s op) := by
  obtain ⟨h0, h1⟩ := h
  cases op <;> simp only [navStep, back, forward, cursorInBounds] <;> constructor <;> omega

theorem navRun_bounds (ops : List NavOp) : ∀ (s : HState), cursorInBounds s →
    cursorInBounds (navRun s ops) := by
  induction ops with
  | nil => exact fun s h => h
  | cons op rest ih =>
    intro s h
    exact ih (navStep s op) (navStep_bounds s op h)

/-- C3: for a non disposed ConsoleHistory with its cursor in bounds, back
resolves to the entry at the decremented cursor (undefined when stepping
past the lower bound), forward to the entry at the incremented cursor
(undefined when stepping past the upper bound), both clamp the cursor to
the interval from zero to the log length, and every sequence of back and
forward calls keeps the cursor in that interval. -/
theorem consoleHistory_navigation_spec (s : HState) (ops : List NavOp)
    (h0 : 0 ≤ s.cursor) (h1 : s.cursor ≤ (s.log.length : Int)) :
    ((back s).2.cursor = max 0 (s.cursor - 1) ∧
      cursorInBounds (back s).2 ∧
      (back s).1 = (if 1 ≤ s.cursor then s.log.get? (s.cursor - 1).toNat else none) ∧
      (s.cursor = 0 → (back s).1 = none)) ∧
    ((forward s).2.cursor = min (s.log.length : Int) (s.cursor + 1) ∧
      cursorInBounds (forward s).2 ∧
      (forward s).1 = s.log.get? (s.cursor + 1).toNat ∧
      ((s.log.length : Int) ≤ s.cursor + 1 → (forward s).1 = none)) ∧
    cursorInBounds (navRun s ops) := by
  refine ⟨⟨rfl, navStep_bounds s .back ⟨h0, h1⟩, ?_, ?_⟩,
          ⟨rfl, navStep_bounds s .forward ⟨h0, h1⟩, ?_, ?_⟩,
          navRun_bounds ops s ⟨h0, h1⟩⟩
  · by_cases hc : 1 ≤ s.cursor
    · rw [if_pos hc]
      show vecAt s.log (s.cursor - 1) = _
      rw [vecAt, if_pos (by omega)]
    · rw [if_neg hc]
      show vecAt s.log (s.cursor - 1) = none
      rw [vecAt, if_neg (by omega)]
  · intro hz
    show vecAt s.log (s.cursor - 1) = none
    rw [vecAt, if_neg (by omega)]
  · show vecAt s.log (s.cursor + 1) = _
    rw [vecAt, if_pos (by omega)]
  · intro hge
    show vecAt s.log (s.cursor + 1) = none
    rw [vecAt, if_pos (by omega)]
    rw [List.get?_eq_none]
    omega

/-- Witness for C3 at the concrete state with log a, b and cursor one. -/
theorem consoleHistory_navigation_spec_witness :
    ((back ⟨["a", "b"], 1⟩).2.cursor = max 0 ((1 : Int) - 1) ∧
      cursorInBounds (back ⟨["a", "b"], 1⟩).2 ∧
      (back ⟨["a", "b"], 1⟩).1 =
        (if (1 : Int) ≤ 1 then ["a", "b"].get? ((1 : Int) - 1).toNat else none) ∧
      ((1 : Int) = 0 → (back ⟨["a", "b"], 1⟩).1 = none)) ∧
    ((forward ⟨["a", "b"], 1⟩).2.cursor = min ((["a", "b"].length : Int)) ((1 : Int) + 1) ∧
      cursorInBounds (forward ⟨["a", "b"], 1⟩).2 ∧
      (forward ⟨["a", "b"], 1⟩).1 = ["a", "b"].get? ((1 : Int) + 1).toNat ∧
      (((["a", "b"].length : Int)) ≤ (1 : Int) + 1 → (forward ⟨["a", "b"], 1⟩).1 = none)) ∧
    cursorInBounds (navRun ⟨["a", "b"], 1⟩ [NavOp.back, NavOp.back, NavOp.forward]) :=
  consoleHistory_navigation_spec ⟨["a", "b"], 1⟩ [NavOp.back, NavOp.back, NavOp.forward]
    (by decide) (by decide)

theorem noAdjDup_append (x : String) : ∀ (l : List String), noAdjDup l = true →
    l.getLast? ≠ some x → noAdjDup (l ++ [x]) = true
  | [], _, _ => rfl
  | [a], _, h2 => by
    have hax : a ≠ x := by
      intro h; exact h2 (by simp [h])
    simp [noAdjDup, hax]
  | a :: b :: t, h1, h2 => by
    simp only [noAdjDup, Bool.and_eq_true, decide_eq_true_eq] at h1
    have ih := noAdjDup_append x (b :: t) h1.2 (by
      simpa only [List.getLast?_cons_cons] using h2)
    simp only [List.cons_append, noAdjDup, Bool.and_eq_true, decide_eq_true_eq]
    exact ⟨h1.1, by simpa only [List.cons_append] using ih⟩

theorem push_noAdjDup (s : HState) (item : String) (h : noAdjDup s.log = true) :
    noAdjDup (push s item).log = true := by
  unfold push
  by_cases hc : item ≠ "" ∧ s.log.getLast? ≠ some item
  · simpa [if_pos hc] using noAdjDup_append item s.log h hc.2
  · simpa [if_neg hc] using h

theorem pushAll_noAdjDup (items : List String) : ∀ (s : HState), noAdjDup s.log = true →
    noAdjDup (pushAll s items).log = true := by
  induction items with
  | nil => exact fun s h => h
  | cons x rest ih => exact fun s h => ih (push s x) (push_noAdjDup s x h)

/-- C4: starting from a log with no adjacent duplicates, any sequence of
push calls keeps the log free of adjacent duplicates; a push of the empty
string or of the current last entry leaves the log unchanged; a successful
push appends the item and resets the cursor to the new log length. -/
theorem consoleHistory_push_spec (s : HState) (item : String) (items : List String)
    (hnd : noAdjDup s.log = true) :
    noAdjDup (pushAll s items).log = true ∧
    (item = "" → (push s item).log = s.log) ∧
    (s.log.getLast? = some item → (push s item).log = s.log) ∧
    (item ≠ "" → s.log.getLast? ≠ some item →
      (push s item).log = s.log ++ [item] ∧
      (push s item).cursor = ((push s item).log.length : Int)) := by
  refine ⟨pushAll_noAdjDup items s hnd, ?_, ?_, ?_⟩
  · intro he; simp [push, he]
  · intro hl; simp [push, hl]
  · intro h1 h2
    constructor
    · simp [push, h1, h2]
    · rfl

/-- Witness for C4 at the fresh history state with a concrete push list. -/
theorem consoleHistory_push_spec_witness :
    noAdjDup (pushAll histInit ["a", "a", "", "b"]).log = true ∧
    ("" = "" → (push histInit "").log = histInit.log) ∧
    (histInit.log.getLast? = some "" → (push histInit "").log = histInit.log) ∧
    ("" ≠ "" → histInit.log.getLast? ≠ some "" →
      (push histInit "").log = histInit.log ++ [""] ∧
      (push histInit "").cursor = (((push histInit "").log.length : Int))) :=
  consoleHistory_push_spec histInit "" ["a", "a", "", "b"] (by decide)

/-- After any push the immediate back read resolves to the last log entry. -/
theorem back_of_push (s : HState) (item : String) :
    (back (push s item)).1 = (push s item).log.getLast? := by
  show vecAt (push s item).log ((push s item).cursor - 1) = _
  have h : (push s item).cursor = ((push s item).log.length : Int) := rfl
  rw [h, vecAt_last]

theorem push_getLast (s : HState) (x : String) (hx : x ≠ "") :
    (push s x).log.getLast? = some x := by
  unfold push
  by_cases hl : s.log.getLast? = some x
  · have : ¬ (x ≠ "" ∧ s.log.getLast? ≠ some x) := by
      intro h; exact h.2 hl
    simp only [if_neg this]
    exact hl
  · simp only [if_pos (And.intro hx hl)]
    exact List.getLast?_concat _

/-- C10: push always resets the cursor to the log length, also when the
item is ignored, so back right after any push resolves to the last log
entry, or undefined when the log is empty. -/
theorem consoleHistory_push_resets_cursor (s : HState) (item : String) :
    (push s item).cursor = ((push s item).log.length : Int) ∧
    (back (push s item)).1 = (push s item).log.getLast? :=
  ⟨rfl, back_of_push s item⟩

/-- C5 counterexample: on a fresh history, push of the empty string
followed by back resolves to undefined, not to the pushed string. -/
theorem consoleHistory_push_empty_back_counterexample :
    (back (push histInit "")).1 ≠ some "" := by decide

/-- C5 (amended to nonempty items): after push of a nonempty string x, the
first back call resolves to x. -/
theorem consoleHistory_push_back_roundtrip (s : HState) (x : String) (hx : x ≠ "") :
    (back (push s x)).1 = some x := by
  rw [back_of_push, push_getLast s x hx]

/-- Witness for the amended C5 at a concrete nonempty string. -/
theorem consoleHistory_push_back_roundtrip_witness :
    (back (push histInit "print(1)")).1 = some "print(1)" :=
  consoleHistory_push_back_roundtrip histInit "print(1)" (by decide)

theorem dedupFrom_empty (l : List String) :
    dedupFrom "" l = dedupContig (l.dropWhile (fun x => x == "")) := by
  induction l with
  | nil => rfl
  | cons x xs ih =>
    by_cases hx : x = ""
    · subst hx
      rw [dedupFrom, if_pos rfl, ih]
      congr 1
    · rw [dedupFrom, if_neg hx]
      rw [List.dropWhile_cons]
      have : (x == "") = false := by simpa using hx
      rw [this]
      rfl

/-- C6 counterexample: a reply whose single input text is the empty string
yields an empty stored log, not the duplicate collapsed input list. -/
theorem consoleHistory_onHistory_counterexample :
    (onHistory [(1, 1, "")]).log ≠ dedupContig ([(1, 1, "")].map (fun e => e.2.2)) := by
  decide

/-- C6 (amended): onHistory stores the input texts with contiguous
duplicates collapsed after dropping any leading run of empty strings, the
comparison starting from an empty string sentinel, and resets the cursor
to the new log length; the duplicate collapse example with nonempty texts
a, a, b, b, b, c yields a, b, c. -/
theorem consoleHistory_onHistory_dedup (entries : List (Nat × Nat × String)) :
    (onHistory entries).log =
      dedupContig ((entries.map (fun e => e.2.2)).dropWhile (fun x => x == "")) ∧
    (onHistory entries).cursor = ((onHistory entries).log.length : Int) ∧
    (onHistory [(1, 1, "a"), (1, 2, "a"), (1, 3, "b"), (1, 4, "b"), (1, 5, "b"),
        (1, 6, "c")]).log = ["a", "b", "c"] :=
  ⟨dedupFrom_empty _, rfl, by decide⟩

end ConsoleHistory

namespace ConsolePanel

/-- The asynchronous environment of a close request: whether a kernel is
attached to the session, the outcome of the kernel spec fetch, the dialog
answer (true when the user clicked OK), and the outcome of the session
shutdown call.  Except.error stands for a rejected promise. -/
structure CloseEnv where
  hasKernel : Bool
  specFetch : Except Unit String
  dialogOk : Bool
  shutdownResult : Except Unit Unit

/-- The observable outcome of onCloseRequest: whether the early dispose in
the no kernel branch ran, whether a synchronous exception was raised, and
whether the final promise chain handler ran, which forwards the close to
the superclass and disposes the panel. -/
structure CloseOutcome where
  earlyDisposed : Bool
  threw : Bool
  chainDisposed : Bool
  deriving DecidableEq

/-- A promise fulfillment handler: a rejected promise skips the handler and
stays rejected, since the source chain attaches no rejection handler. -/
def pThen {α β : Type} (p : Except Unit α) (f : α → Except Unit β) : Except Unit β :=
  p.bind f

/-- Embedding of ConsolePanel.onCloseRequest.  When the session has no
kernel the handler disposes the panel and then dereferences the null
kernel, raising a TypeError before any promise chain is built.  Otherwise
the chain fetches the kernel spec, shows the dialog, on OK issues the
shutdown, and its final handler closes and disposes; the final handler
runs only when no earlier step was rejected. -/
def onCloseRequest (env : CloseEnv) : CloseOutcome :=
  if !env.hasKernel then
    { earlyDisposed := true, threw := true, chainDisposed := false }
  else
    let chain : Except Unit Unit :=
      pThen (pThen (pThen env.specFetch
        (fun _ => Except.ok env.dialogOk))
        (fun ok => if ok then env.shutdownResult else Except.ok ()))
        (fun _ => Except.ok ())
    { earlyDisposed := false, threw := false,
      chainDisposed := chain.toOption.isSome }

/-- The four concrete close request environments examined in C2. -/
def envNoKernel : CloseEnv :=
  { hasKernel := false, specFetch := Except.ok "Python",
    dialogOk := true, shutdownResult := Except.ok () }

/-- Environment with a kernel whose spec fetch is rejected. -/
def envSpecRejected : CloseEnv :=
  { hasKernel := true, specFetch := Except.error (),
    dialogOk := true, shutdownResult := Except.ok () }

/-- Environment with a kernel whose shutdown call is rejected after OK. -/
def envShutdownRejected : CloseEnv :=
  { hasKernel := true, specFetch := Except.ok "Python",
    dialogOk := true, shutdownResult := Except.error () }

/-- Environment with a kernel where the user declines the dialog. -/
def envDeclined : CloseEnv :=
  { hasKernel := true, specFetch := Except.ok "Python",
    dialogOk := false, shutdownResult := Except.error () }

/-- C2: evaluating the close request handler shows the code violating the
claim.  With no kernel attached the panel is disposed but the handler then
raises a TypeError instead of completing cleanly, and with a kernel
attached a rejected kernel spec fetch or a rejected shutdown skips the
final handler, so the disposal that the claim promises never happens; only
a fully resolved chain, as in the declined dialog case, disposes. -/
theorem consolePanel_onCloseRequest_bug :
    onCloseRequest envNoKernel =
      { earlyDisposed := true, threw := true, chainDisposed := false } ∧
    onCloseRequest envSpecRejected =
      { earlyDisposed := false, threw := false, chainDisposed := false } ∧
    onCloseRequest envShutdownRejected =
      { earlyDisposed := false, threw := false, chainDisposed := false } ∧
    onCloseRequest envDeclined =
      { earlyDisposed := false, threw := false, chainDisposed := true } :=
  ⟨rfl, rfl, rfl, rfl⟩

end ConsolePanel

namespace NotebookW

/-- The discriminant of a cell model and of the widget factory that built
a cell widget. -/
inductive CellType where
  | code
  | markdown
  | raw
  deriving DecidableEq

/-- The interactivity mode of the notebook. -/
inductive Mode where
  | command
  | edit
  deriving DecidableEq

/-- The observable editor cursor position of a cell widget: setCursor with
a line and column, setCursorPosition with an absolute offset, or untouched. -/
inductive CursorPos where
  | unset
  | lineCol (line col : Nat)
  | offset (pos : Nat)
  deriving DecidableEq

/-- A cell widget of the notebook: its object identity, the factory
discriminant, the rendered flag of markdown widgets, the attached selected
property, and the embedded editor state observed by the claims: the cursor,
the index of the last line, and the length of the last line. -/
structure BaseCellWidget where
  id : Nat
  ty : CellType
  rendered : Bool
  selected : Bool
  cursor : CursorPos
  lastLine : Nat
  lastLineLen : Nat
  deriving DecidableEq

/-- The state of a Notebook widget: the model cell list (none embeds a
null model), the child widget list, and the private fields
activeCellIndexRaw, activeCell (a widget id reference), mode and isActive. -/
structure NBState where
  model : Option (List CellType)
  widgets : List BaseCellWidget
  activeCellIndexRaw : Int
  activeCell : Option Nat
  mode : Mode
  isActive : Bool
  deriving DecidableEq

/-- Embedding of childAt: layout.widgets.at with a JavaScript index. -/
def childAt (s : NBState) (i : Int) : Option BaseCellWidget :=
  if 0 ≤ i then s.widgets.get? i.toNat else none

/-- Embedding of the activeCellIndex getter: minus one without a model or
on an empty model, otherwise the stored raw index. -/
def activeCellIndexGet (s : NBState) : Int :=
  match s.model with
  | none => -1
  | some cells => if cells.length = 0 then -1 else s.activeCellIndexRaw

/-- The notifications an activeCellIndex assignment can emit. -/
structure IndexEmits where
  activeCellChanged : Bool
  stateChangedIndex : Bool
  deriving DecidableEq

/-- Embedding of the activeCellIndex setter: resolve the new value (minus
one without a model or cells, else clamped by a max with zero followed by
a min with count minus one), store it, resolve the widget at the new
value, emit activeCellChanged exactly when that widget reference differs
from the stored one, and emit stateChanged exactly when the resolved value
differs from the previously stored one. -/
def setActiveCellIndex (s : NBState) (v : Int) : NBState × IndexEmits :=
  let oldValue := s.activeCellIndexRaw
  let newValue : Int :=
    match s.model with
    | none => -1
    | some cells =>
        if cells.length = 0 then -1 else min (max v 0) ((cells.length : Int) - 1)
  let cellId := (childAt s newValue).map (fun w => w.id)
  ({ s with activeCellIndexRaw := newValue, activeCell := cellId },
   { activeCellChanged := decide (cellId ≠ s.activeCell),
     stateChangedIndex := decide (newValue ≠ oldValue) })

/-- The notifications and requests a mode assignment can emit: the
stateChanged notification, the number of selectionChanged notifications
from the deselect loop, and whether an activate request was sent. -/
structure ModeEmits where
  stateChangedMode : Bool
  selectionChangedCount : Nat
  activateRequested : Bool
  deriving DecidableEq

/-- Embedding of the mode setter: a no op when the mode is unchanged;
otherwise store the mode and emit stateChanged; then, when there is an
active cell and the new mode is edit, deselect every widget, force the
active cell unrendered when it is a markdown widget, and send an activate
request when the widget is not active (the synchronously delivered
activate request sets isActive). -/
def setMode (s : NBState) (newValue : Mode) : NBState × ModeEmits :=
  if newValue = s.mode then (s, ⟨false, 0, false⟩)
  else
    let s1 := { s with mode := newValue }
    match s1.activeCell with
    | none => (s1, ⟨true, 0, false⟩)
    | some ac =>
      match newValue with
      | Mode.command => (s1, ⟨true, 0, false⟩)
      | Mode.edit =>
        let selCount := (s1.widgets.filter (fun w => w.selected)).length
        let ws1 := s1.widgets.map (fun w => { w with selected := false })
        let ws2 := ws1.map (fun w =>
          if w.id = ac ∧ w.ty = CellType.markdown then { w with rendered := false } else w)
        ({ s1 with widgets := ws2, isActive := true },
         ⟨true, selCount, !s.isActive⟩)

/-- The boundary a cursor left in an edge request. -/
inductive EdgeLocation where
  | top
  | bottom
  deriving DecidableEq

/-- Dereference a widget id against the child list. -/
def findWidget (s : NBState) (wid : Nat) : Option BaseCellWidget :=
  s.widgets.find? (fun w => w.id == wid)

/-- Mutate the editor cursor of the widget the activeCell reference
points at. -/
def setCursorOfActive (s : NBState) (pos : CursorPos) : NBState :=
  match s.activeCell with
  | none => s
  | some ac =>
      { s with widgets :=
          s.widgets.map (fun w => if w.id = ac then { w with cursor := pos } else w) }

/-- Embedding of the edge request handler: read the previous index, step
the activeCellIndex property down on a top exit and up on a bottom exit,
and when the index actually changed set the cursor of the new active cell:
on a top exit to column zero of its last line via setCursor, on a bottom
exit to offset zero via setCursorPosition. -/
def onEdgeRequest (s : NBState) (loc : EdgeLocation) : NBState :=
  let prev := activeCellIndexGet s
  match loc with
  | .top =>
    let s1 := (setActiveCellIndex s (prev - 1)).1
    if activeCellIndexGet s1 < prev then
      match s1.activeCell.bind (findWidget s1) with
      | some w => setCursorOfActive s1 (CursorPos.lineCol w.lastLine 0)
      | none => s1
    else s1
  | .bottom =>
    let s1 := (setActiveCellIndex s (prev + 1)).1
    if activeCellIndexGet s1 > prev then setCursorOfActive s1 (CursorPos.offset 0)
    else s1

/-- The cursor position at the end of the last line of the editor of a
widget: what the specification claims a top edge exit produces. -/
def endOfLastLine (w : BaseCellWidget) : CursorPos :=
  CursorPos.lineCol w.lastLine w.lastLineLen

/-- C7: the activeCellIndex setter stores minus one without a model or on
an empty model and otherwise the value clamped to the interval from zero
to count minus one; the activeCellChanged notification is emitted exactly
when the resolved widget reference differs from the stored one, and the
stateChanged notification exactly when the resolved numeric index differs
from the previously stored numeric index. -/
theorem notebook_activeCellIndex_set_spec (s : NBState) (v : Int) :
    ((setActiveCellIndex s v).1.activeCellIndexRaw =
      (match s.model with
       | none => -1
       | some cells =>
           if cells.length = 0 then -1 else max 0 (min v ((cells.length : Int) - 1)))) ∧
    ((setActiveCellIndex s v).2.activeCellChanged = true ↔
      (childAt s (setActiveCellIndex s v).1.activeCellIndexRaw).map (fun w => w.id) ≠
        s.activeCell) ∧
    ((setActiveCellIndex s v).2.stateChangedIndex = true ↔
      (setActiveCellIndex s v).1.activeCellIndexRaw ≠ s.activeCellIndexRaw) := by
  unfold setActiveCellIndex
  cases hm : s.model with
  | none => simp
  | some cells =>
    by_cases hz : cells.length = 0
    · simp [hz]
    · simp only [hz, if_false, decide_eq_true_eq]
      refine ⟨by omega, trivial, trivial⟩

/-- A selected code cell widget used in the C8 counterexample. -/
def selectedWidget : BaseCellWidget :=
  ⟨0, CellType.code, true, true, CursorPos.unset, 0, 0⟩

/-- A notebook already in edit mode with its single widget selected. -/
def editSelectedState : NBState :=
  { model := some [CellType.code], widgets := [selectedWidget],
    activeCellIndexRaw := 0, activeCell := some 0,
    mode := Mode.edit, isActive := true }

/-- C8 counterexample: on a notebook already in edit mode, assigning edit
to mode is a no op, so a selected widget stays selected, refuting the
unconditional deselection the claim states. -/
theorem notebook_mode_edit_counterexample :
    ((setMode editSelectedState Mode.edit).1.widgets.all (fun w => !w.selected)) = false := by
  decide

/-- C8 (amended to an actual mode change with an active cell): assigning
edit to mode when the mode differs and an active cell exists deselects
every child widget, forces the active cell unrendered when it is a
markdown cell, emits the mode stateChanged notification, and requests
activation exactly when the widget is not currently active. -/
theorem notebook_setMode_edit (s : NBState) (ac : Nat)
    (hmode : s.mode ≠ Mode.edit) (hac : s.activeCell = some ac) :
    ((setMode s Mode.edit).1.widgets.all (fun w => !w.selected)) = true ∧
    ((setMode s Mode.edit).1.widgets.all
      (fun w => !(decide (w.id = ac) && decide (w.ty = CellType.markdown)) || !w.rendered))
      = true ∧
    (setMode s Mode.edit).2.activateRequested = !s.isActive ∧
    (setMode s Mode.edit).2.stateChangedMode = true := by
  have hedit : Mode.edit ≠ s.mode := fun h => hmode h.symm
  unfold setMode
  rw [if_neg hedit]
  dsimp only
  rw [hac]
  dsimp only
  refine ⟨?_, ?_, rfl, rfl⟩
  · simp only [List.all_map, List.all_eq_true]
    intro w _
    by_cases hc : w.id = ac ∧ w.ty = CellType.markdown <;>
      simp [Function.comp, hc]
  · simp only [List.all_map, List.all_eq_true]
    intro w _
    by_cases hc : w.id = ac ∧ w.ty = CellType.markdown
    · simp [Function.comp, hc]
    · simp only [Function.comp, if_neg hc]
      rcases not_and_or.mp hc with h | h <;> simp [h]

/-- A command mode notebook with a selected markdown active cell, used to
witness the amended C8. -/
def commandSelectedState : NBState :=
  { model := some [CellType.markdown], widgets :=
      [⟨0, CellType.markdown, true, true, CursorPos.unset, 0, 0⟩],
    activeCellIndexRaw := 0, activeCell := some 0,
    mode := Mode.command, isActive := false }

/-- Witness for the amended C8 at a concrete command mode notebook. -/
theorem notebook_setMode_edit_witness :
    ((setMode commandSelectedState Mode.edit).1.widgets.all (fun w => !w.selected)) = true ∧
    ((setMode commandSelectedState Mode.edit).1.widgets.all
      (fun w => !(decide (w.id = 0) && decide (w.ty = CellType.markdown)) || !w.rendered))
      = true ∧
    (setMode commandSelectedState Mode.edit).2.activateRequested =
      !commandSelectedState.isActive ∧
    (setMode commandSelectedState Mode.edit).2.stateChangedMode = true :=
  notebook_setMode_edit commandSelectedState 0 (by decide) rfl

end NotebookW

namespace NotebookW

theorem find?_of_mem_nodup (w : BaseCellWidget) : ∀ (l : List BaseCellWidget),
    w ∈ l → (l.map (fun x => x.id)).Nodup →
    l.find? (fun x => x.id == w.id) = some w := by
  intro l
  induction l with
  | nil => intro h; cases h
  | cons a t ih =>
    intro hmem hnd
    by_cases hid : a.id = w.id
    · have hwa : w = a := by
        rcases List.mem_cons.mp hmem with h | h
        · exact h
        · exfalso
          have hin : w.id ∈ t.map (fun x => x.id) := List.mem_map.mpr ⟨w, h, rfl⟩
          have ha : a.id ∉ t.map (fun x => x.id) := (List.nodup_cons.mp hnd).1
          exact ha (hid ▸ hin)
      rw [List.find?_cons_of_pos _ (by simpa using hid), hwa]
    · rw [List.find?_cons_of_neg _ (by simpa using hid)]
      refine ih ?_ (List.nodup_cons.mp hnd).2
      rcases List.mem_cons.mp hmem with h | h
      · exact absurd (by rw [h]) hid
      · exact h

theorem activeCellIndexGet_of_model {s : NBState} {cells : List CellType}
    (hm : s.model = some cells) (hnz : cells.length ≠ 0) :
    activeCellIndexGet s = s.activeCellIndexRaw := by
  simp only [activeCellIndexGet, hm]
  rw [if_neg hnz]

theorem setActiveCellIndex_state {s : NBState} {cells : List CellType} (v : Int)
    (hm : s.model = some cells) (hnz : cells.length ≠ 0) :
    (setActiveCellIndex s v).1 =
      { s with
        activeCellIndexRaw := min (max v 0) ((cells.length : Int) - 1),
        activeCell :=
          (childAt s (min (max v 0) ((cells.length : Int) - 1))).map (fun w => w.id) } := by
  simp only [setActiveCellIndex, hm]
  rw [if_neg hnz]

theorem onEdgeRequest_top (s : NBState) (cells : List CellType)
    (hm : s.model = some cells)
    (hlen : s.widgets.length = cells.length)
    (hnz : cells.length ≠ 0)
    (hlo : 0 ≤ s.activeCellIndexRaw)
    (hhi : s.activeCellIndexRaw < (cells.length : Int))
    (hnd : (s.widgets.map (fun w => w.id)).Nodup) :
    (onEdgeRequest s EdgeLocation.top).activeCellIndexRaw =
      max 0 (s.activeCellIndexRaw - 1) ∧
    (if 1 ≤ s.activeCellIndexRaw then
       (onEdgeRequest s EdgeLocation.top).widgets.get? (s.activeCellIndexRaw - 1).toNat =
         (s.widgets.get? (s.activeCellIndexRaw - 1).toNat).map
           (fun w => { w with cursor := CursorPos.lineCol w.lastLine 0 })
     else (onEdgeRequest s EdgeLocation.top).widgets = s.widgets) := by
  have hprev := activeCellIndexGet_of_model hm hnz
  by_cases hp : 1 ≤ s.activeCellIndexRaw
  · -- the index moves down by one and the new active widget gets the cursor
    have hidx : (s.activeCellIndexRaw - 1).toNat < s.widgets.length := by
      rw [hlen]; omega
    obtain ⟨w, hw⟩ : ∃ w, s.widgets.get? (s.activeCellIndexRaw - 1).toNat = some w :=
      ⟨_, List.get?_eq_get hidx⟩
    have hchild : childAt s (s.activeCellIndexRaw - 1) = some w := by
      rw [childAt, if_pos (by omega)]
      exact hw
    have hval : min (max (activeCellIndexGet s - 1) 0) ((cells.length : Int) - 1) =
        s.activeCellIndexRaw - 1 := by
      rw [hprev]; omega
    have hs1 : (setActiveCellIndex s (activeCellIndexGet s - 1)).1 =
        { s with activeCellIndexRaw := s.activeCellIndexRaw - 1,
                 activeCell := some w.id } := by
      rw [setActiveCellIndex_state _ hm hnz]
      simp only [hval, hchild, Option.map_some']
    have hres : onEdgeRequest s EdgeLocation.top =
        setCursorOfActive
          { s with activeCellIndexRaw := s.activeCellIndexRaw - 1,
                   activeCell := some w.id }
          (CursorPos.lineCol w.lastLine 0) := by
      simp only [onEdgeRequest]
      rw [hs1]
      have hget1 : activeCellIndexGet
          { s with activeCellIndexRaw := s.activeCellIndexRaw - 1,
                   activeCell := some w.id } = s.activeCellIndexRaw - 1 :=
        activeCellIndexGet_of_model hm hnz
      rw [hget1, hprev, if_pos (by omega)]
      have hfind : findWidget
          { s with activeCellIndexRaw := s.activeCellIndexRaw - 1,
                   activeCell := some w.id } w.id = some w :=
        find?_of_mem_nodup w s.widgets (List.get?_mem hw) hnd
      simp only [Option.some_bind, hfind]
    rw [hres]
    constructor
    · show s.activeCellIndexRaw - 1 = _
      omega
    · rw [if_pos hp]
      show (s.widgets.map _).get? _ = _
      rw [List.get?_map, hw]
      simp
  · -- at the boundary nothing moves and no cursor is set
    have hp0 : s.activeCellIndexRaw = 0 := by omega
    have hval : min (max (activeCellIndexGet s - 1) 0) ((cells.length : Int) - 1) = 0 := by
      rw [hprev]; omega
    have hs1 : (setActiveCellIndex s (activeCellIndexGet s - 1)).1 =
        { s with activeCellIndexRaw := 0,
                 activeCell := (childAt s 0).map (fun w => w.id) } := by
      rw [setActiveCellIndex_state _ hm hnz]
      simp only [hval]
    have hres : onEdgeRequest s EdgeLocation.top =
        { s with activeCellIndexRaw := 0,
                 activeCell := (childAt s 0).map (fun w => w.id) } := by
      simp only [onEdgeRequest]
      rw [hs1]
      have hget1 : activeCellIndexGet
          { s with activeCellIndexRaw := 0,
                   activeCell := (childAt s 0).map (fun w => w.id) } = 0 :=
        activeCellIndexGet_of_model hm hnz
      have hguard : ¬ (activeCellIndexGet
          { s with activeCellIndexRaw := 0,
                   activeCell := (childAt s 0).map (fun w => w.id) } <
            activeCellIndexGet s) := by
        rw [hget1, hprev, hp0]
        omega
      rw [if_neg hguard]
    rw [hres, if_neg hp]
    refine ⟨?_, rfl⟩
    show (0 : Int) = max 0 (s.activeCellIndexRaw - 1)
    omega

theorem onEdgeRequest_bottom (s : NBState) (cells : List CellType)
    (hm : s.model = some cells)
    (hlen : s.widgets.length = cells.length)
    (hnz : cells.length ≠ 0)
    (hlo : 0 ≤ s.activeCellIndexRaw)
    (hhi : s.activeCellIndexRaw < (cells.length : Int)) :
    (onEdgeRequest s EdgeLocation.bottom).activeCellIndexRaw =
      min ((cells.length : Int) - 1) (s.activeCellIndexRaw + 1) ∧
    (if s.activeCellIndexRaw + 1 ≤ (cells.length : Int) - 1 then
       (onEdgeRequest s EdgeLocation.bottom).widgets.get? (s.activeCellIndexRaw + 1).toNat =
         (s.widgets.get? (s.activeCellIndexRaw + 1).toNat).map
           (fun w => { w with cursor := CursorPos.offset 0 })
     else (onEdgeRequest s EdgeLocation.bottom).widgets = s.widgets) := by
  have hprev := activeCellIndexGet_of_model hm hnz
  by_cases hp : s.activeCellIndexRaw + 1 ≤ (cells.length : Int) - 1
  · have hidx : (s.activeCellIndexRaw + 1).toNat < s.widgets.length := by
      rw [hlen]; omega
    obtain ⟨w, hw⟩ : ∃ w, s.widgets.get? (s.activeCellIndexRaw + 1).toNat = some w :=
      ⟨_, List.get?_eq_get hidx⟩
    have hchild : childAt s (s.activeCellIndexRaw + 1) = some w := by
      rw [childAt, if_pos (by omega)]
      exact hw
    have hval : min (max (activeCellIndexGet s + 1) 0) ((cells.length : Int) - 1) =
        s.activeCellIndexRaw + 1 := by
      rw [hprev]; omega
    have hs1 : (setActiveCellIndex s (activeCellIndexGet s + 1)).1 =
        { s with activeCellIndexRaw := s.activeCellIndexRaw + 1,
                 activeCell := some w.id } := by
      rw [setActiveCellIndex_state _ hm hnz]
      simp only [hval, hchild, Option.map_some']
    have hres : onEdgeRequest s EdgeLocation.bottom =
        setCursorOfActive
          { s with activeCellIndexRaw := s.activeCellIndexRaw + 1,
                   activeCell := some w.id }
          (CursorPos.offset 0) := by
      simp only [onEdgeRequest]
      rw [hs1]
      have hget1 : activeCellIndexGet
          { s with activeCellIndexRaw := s.activeCellIndexRaw + 1,
                   activeCell := some w.id } = s.activeCellIndexRaw + 1 :=
        activeCellIndexGet_of_model hm hnz
      rw [hget1, hprev, if_pos (by omega)]
    rw [hres]
    constructor
    · show s.activeCellIndexRaw + 1 = _
      omega
    · rw [if_pos hp]
      show (s.widgets.map _).get? _ = _
      rw [List.get?_map, hw]
      simp
  · have hp0 : s.activeCellIndexRaw = (cells.length : Int) - 1 := by omega
    have hval : min (max (activeCellIndexGet s + 1) 0) ((cells.length : Int) - 1) =
        (cells.length : Int) - 1 := by
      rw [hprev]; omega
    have hs1 : (setActiveCellIndex s (activeCellIndexGet s + 1)).1 =
        { s with activeCellIndexRaw := (cells.length : Int) - 1,
                 activeCell :=
                   (childAt s ((cells.length : Int) - 1)).map (fun w => w.id) } := by
      rw [setActiveCellIndex_state _ hm hnz]
      simp only [hval]
    have hres : onEdgeRequest s EdgeLocation.bottom =
        { s with activeCellIndexRaw := (cells.length : Int) - 1,
                 activeCell :=
                   (childAt s ((cells.length : Int) - 1)).map (fun w => w.id) } := by
      simp only [onEdgeRequest]
      rw [hs1]
      have hget1 : activeCellIndexGet
          { s with activeCellIndexRaw := (cells.length : Int) - 1,
                   activeCell :=
                     (childAt s ((cells.length : Int) - 1)).map (fun w => w.id) } =
          (cells.length : Int) - 1 :=
        activeCellIndexGet_of_model hm hnz
      have hguard : ¬ (activeCellIndexGet
          { s with activeCellIndexRaw := (cells.length : Int) - 1,
                   activeCell :=
                     (childAt s ((cells.length : Int) - 1)).map (fun w => w.id) } >
            activeCellIndexGet s) := by
        rw [hget1, hprev, hp0]
        omega
      rw [if_neg hguard]
    rw [hres, if_neg hp]
    refine ⟨?_, rfl⟩
    show (cells.length : Int) - 1 = min ((cells.length : Int) - 1) (s.activeCellIndexRaw + 1)
    omega

/-- The upper widget of the concrete edge navigation notebook: a three
line editor whose last line index is two and whose last line holds five
characters. -/
def edgeUpperWidget : BaseCellWidget :=
  ⟨10, CellType.code, true, false, CursorPos.unset, 2, 5⟩

/-- The lower widget of the concrete edge navigation notebook. -/
def edgeLowerWidget : BaseCellWidget :=
  ⟨11, CellType.code, true, false, CursorPos.unset, 0, 0⟩

/-- A two cell notebook whose active cell is the lower one. -/
def edgeState : NBState :=
  { model := some [CellType.code, CellType.code],
    widgets := [edgeUpperWidget, edgeLowerWidget],
    activeCellIndexRaw := 1, activeCell := some 11,
    mode := Mode.edit, isActive := true }

/-- C9 counterexample: a top edge exit from the lower cell positions the
new active cell editor cursor at column zero of its last line, not at the
end of its last line as the claim states: the last line holds five
characters, so its end is column five. -/
theorem notebook_edge_top_cursor_counterexample :
    ((onEdgeRequest edgeState EdgeLocation.top).widgets.get? 0).map (fun w => w.cursor) =
      some (CursorPos.lineCol 2 0) ∧
    ((onEdgeRequest edgeState EdgeLocation.top).widgets.get? 0).map (fun w => w.cursor) ≠
      (edgeState.widgets.get? 0).map (fun w => endOfLastLine w) := by
  refine ⟨by decide, by decide⟩

/-- C9 (amended: index steps are clamped to the cell range and the top
exit cursor lands on the first column of the last line): a top edge exit
moves the active index down by one, clamped below by zero, and when the
index moved positions the new active cell editor cursor at column zero of
its last line; a bottom edge exit moves the active index up by one,
clamped above by count minus one, and when the index moved positions the
new active cell editor cursor at its first character. -/
theorem notebook_onEdgeRequest_spec (s : NBState) (cells : List CellType)
    (hm : s.model = some cells)
    (hlen : s.widgets.length = cells.length)
    (hnz : cells.length ≠ 0)
    (hlo : 0 ≤ s.activeCellIndexRaw)
    (hhi : s.activeCellIndexRaw < (cells.length : Int))
    (hnd : (s.widgets.map (fun w => w.id)).Nodup) :
    ((onEdgeRequest s EdgeLocation.top).activeCellIndexRaw =
      max 0 (s.activeCellIndexRaw - 1) ∧
    (if 1 ≤ s.activeCellIndexRaw then
       (onEdgeRequest s EdgeLocation.top).widgets.get? (s.activeCellIndexRaw - 1).toNat =
         (s.widgets.get? (s.activeCellIndexRaw - 1).toNat).map
           (fun w => { w with cursor := CursorPos.lineCol w.lastLine 0 })
     else (onEdgeRequest s EdgeLocation.top).widgets = s.widgets)) ∧
    ((onEdgeRequest s EdgeLocation.bottom).activeCellIndexRaw =
      min ((cells.length : Int) - 1) (s.activeCellIndexRaw + 1) ∧
    (if s.activeCellIndexRaw + 1 ≤ (cells.length : Int) - 1 then
       (onEdgeRequest s EdgeLocation.bottom).widgets.get? (s.activeCellIndexRaw + 1).toNat =
         (s.widgets.get? (s.activeCellIndexRaw + 1).toNat).map
           (fun w => { w with cursor := CursorPos.offset 0 })
     else (onEdgeRequest s EdgeLocation.bottom).widgets = s.widgets)) :=
  ⟨onEdgeRequest_top s cells hm hlen hnz hlo hhi hnd,
   onEdgeRequest_bottom s cells hm hlen hnz hlo hhi⟩

/-- Witness for the amended C9 at the concrete two cell notebook. -/
theorem notebook_onEdgeRequest_spec_witness :
    ((onEdgeRequest edgeState EdgeLocation.top).activeCellIndexRaw =
      max 0 (edgeState.activeCellIndexRaw - 1) ∧
    (if 1 ≤ edgeState.activeCellIndexRaw then
       (onEdgeRequest edgeState EdgeLocation.top).widgets.get?
           (edgeState.activeCellIndexRaw - 1).toNat =
         (edgeState.widgets.get? (edgeState.activeCellIndexRaw - 1).toNat).map
           (fun w => { w with cursor := CursorPos.lineCol w.lastLine 0 })
     else (onEdgeRequest edgeState EdgeLocation.top).widgets = edgeState.widgets)) ∧
    ((onEdgeRequest edgeState EdgeLocation.bottom).activeCellIndexRaw =
      min (((([CellType.code, CellType.code] : List CellType).length : Int)) - 1)
        (edgeState.activeCellIndexRaw + 1) ∧
    (if edgeState.activeCellIndexRaw + 1 ≤
        ((([CellType.code, CellType.code] : List CellType).length : Int)) - 1 then
       (onEdgeRequest edgeState EdgeLocation.bottom).widgets.get?
           (edgeState.activeCellIndexRaw + 1).toNat =
         (edgeState.widgets.get? (edgeState.activeCellIndexRaw + 1).toNat).map
           (fun w => { w with cursor := CursorPos.offset 0 })
     else (onEdgeRequest edgeState EdgeLocation.bottom).widgets = edgeState.widgets)) :=
  notebook_onEdgeRequest_spec edgeState [CellType.code, CellType.code]
    rfl rfl (by decide) (by decide) (by decide) (by decide)

end NotebookW

namespace StaticNB

/-- The discriminant of a cell model in the reconciliation embedding. -/
inductive CellType where
  | code
  | markdown
  | raw
  deriving DecidableEq

/-- A cell model entry of the notebook model list, with its identity. -/
structure CellM where
  id : Nat
  ty : CellType
  deriving DecidableEq

/-- A cell widget of the static notebook child list: its own object
identity, the identity of the backing cell model, and the factory
discriminant it was constructed with.  A reconstructed widget receives a
fresh object identity. -/
structure CellW where
  wid : Nat
  cellId : Nat
  wty : CellType
  deriving DecidableEq

/-- Insert an element at a position of a list. -/
def insertAt {α : Type} (l : List α) (n : Nat) (x : α) : List α :=
  l.take n ++ x :: l.drop n

/-- Relocate the element at position i to position j, as the phosphor
vector move does: remove it, then insert it so it ends at position j. -/
def listMove {α : Type} (l : List α) (i j : Nat) : List α :=
  match l.get? i with
  | none => l
  | some x => insertAt (l.eraseIdx i) j x

/-- Embedding of phosphor PanelLayout.insertWidget: clamp the index to
the vector bounds; a widget not yet attached is inserted there; a widget
already attached is relocated, with the clamped index pulled back by one
when it equals the length, and nothing happens when the positions agree. -/
def insertWidget (ws : List CellW) (index : Int) (w : CellW) : List CellW :=
  let j := (max 0 (min index (ws.length : Int))).toNat
  match ws.findIdx? (fun x => x.wid == w.wid) with
  | none => insertAt ws j w
  | some i =>
    let j2 := if j = ws.length then j - 1 else j
    if i = j2 then ws else insertAt (ws.eraseIdx i) j2 w

/-- The state of the static notebook reconciliation: the child widget
list and the counter supplying fresh widget identities. -/
structure SNState where
  widgets : List CellW
  nextWid : Nat
  deriving DecidableEq

/-- A static notebook with no children yet. -/
def snInit : SNState := ⟨[], 0⟩

/-- The widget factory dispatch of insertCell: one widget per cell model,
keyed on the cell discriminant, with a fresh object identity. -/
def makeWidget (nid : Nat) (cell : CellM) : CellW := ⟨nid, cell.id, cell.ty⟩

/-- Embedding of StaticNotebook insertCell: construct a widget for the
cell via the factory and insert it into the layout at the index. -/
def insertCell (s : SNState) (index : Nat) (cell : CellM) : SNState :=
  { widgets := insertWidget s.widgets (index : Int) (makeWidget s.nextWid cell),
    nextWid := s.nextWid + 1 }

/-- Embedding of StaticNotebook removeCell: detach and dispose the widget
at the index. -/
def removeCell (s : SNState) (index : Nat) : SNState :=
  { s with widgets := s.widgets.eraseIdx index }

/-- Embedding of StaticNotebook moveCell: reinsert the widget currently
at fromIndex at toIndex, relocating it inside the layout. -/
def moveCell (s : SNState) (fromIndex toIndex : Nat) : SNState :=
  match s.widgets.get? fromIndex with
  | none => s
  | some w => { s with widgets := insertWidget s.widgets (toIndex : Int) w }

/-- Modelled from the spec: the structural change notification of the
observable cell list collaborator, which is not under src.  Per the
external interface section it carries a kind together with oldIndex,
newIndex, oldValue and newValue; a move names its source as oldIndex and
its destination as newIndex. -/
inductive ListChangedArgs where
  | add (newIndex : Nat) (newValue : CellM)
  | move (oldIndex newIndex : Nat)
  | remove (oldIndex : Nat) (oldValue : CellM)
  | replace (oldIndex : Nat) (oldValue : List CellM) (newIndex : Nat)
      (newValue : List CellM)
  | set (newIndex : Nat) (oldValue newValue : CellM)
  deriving DecidableEq

/-- Embedding of the onCellsChanged handler: add inserts at newIndex;
move passes newIndex as the source and oldIndex as the destination of
moveCell, exactly as the source does; remove erases at oldIndex; replace
removes the old run at oldIndex and reinserts the new run at newIndex
from its last element to its first; set removes and reinserts one index. -/
def onCellsChanged (s : SNState) : ListChangedArgs → SNState
  | .add newIndex newValue => insertCell s newIndex newValue
  | .move oldIndex newIndex => moveCell s newIndex oldIndex
  | .remove oldIndex _ => removeCell s oldIndex
  | .replace oldIndex oldValue newIndex newValue =>
      let s1 := (List.range oldValue.length).foldl (fun t _ => removeCell t oldIndex) s
      newValue.reverse.foldl (fun t c => insertCell t newIndex c) s1
  | .set newIndex _ newValue => insertCell (removeCell s newIndex) newIndex newValue

/-- Modelled from the spec: the mutations of the observable cell list
collaborator that produce structural change notifications. -/
inductive ListOp where
  | add (cell : CellM)
  | move (fromIndex toIndex : Nat)
  | removeAt (index : Nat)
  | set (index : Nat) (cell : CellM)
  | replace (index count : Nat) (cells : List CellM)
  deriving DecidableEq

/-- Modelled from the spec: apply one observable list mutation to the
model cell list and emit the corresponding notification; a mutation with
an out of range index is refused. -/
def applyModelOp (cells : List CellM) : ListOp → Option (List CellM × ListChangedArgs)
  | .add c => some (cells ++ [c], .add cells.length c)
  | .move i j =>
      if i < cells.length ∧ j < cells.length then
        some (listMove cells i j, .move i j)
      else none
  | .removeAt i =>
      match cells.get? i with
      | some c => some (cells.eraseIdx i, .remove i c)
      | none => none
  | .set i c =>
      match cells.get? i with
      | some old => some (cells.set i c, .set i old c)
      | none => none
  | .replace i cnt newCells =>
      if i + cnt ≤ cells.length then
        some (cells.take i ++ newCells ++ cells.drop (i + cnt),
              .replace i ((cells.drop i).take cnt) i newCells)
      else none

/-- Run a sequence of model mutations, delivering each emitted change to
the static notebook handler before the next mutation is applied. -/
def runOps : List ListOp → List CellM → SNState → Option (List CellM × SNState)
  | [], cells, s => some (cells, s)
  | op :: rest, cells, s =>
      match applyModelOp cells op with
      | none => none
      | some (cells2, e) => runOps rest cells2 (onCellsChanged s e)

/-- The pair of orders the invariant compares: the cell identities in the
model order, and the backing cell identities in the widget order. -/
def orderTrace (r : Option (List CellM × SNState)) : Option (List Nat × List Nat) :=
  r.map (fun p => (p.1.map (fun c => c.id), p.2.widgets.map (fun w => w.cellId)))

/-- Three appends of distinct code cells. -/
def c1AddOps : List ListOp :=
  [.add ⟨0, CellType.code⟩, .add ⟨1, CellType.code⟩, .add ⟨2, CellType.code⟩]

/-- Three appends followed by a move of the first cell to the end. -/
def c1Ops : List ListOp := c1AddOps ++ [.move 0 2]

/-- C1: evaluating the reconciliation at the failing input.  After three
adds the widget order matches the model order, but a move of the cell at
old index zero to new index two leaves the model at identities one, two,
zero while the handler, which feeds newIndex to the fromIndex parameter
of moveCell, relocates the widget at index two to index zero: the widget
orders diverge, and the widget that was at the old index zero (object
identity zero) ends at index one rather than at the new index two. -/
theorem staticNotebook_move_event_mismatch :
    orderTrace (runOps c1AddOps [] snInit) = some ([0, 1, 2], [0, 1, 2]) ∧
    orderTrace (runOps c1Ops [] snInit) = some ([1, 2, 0], [2, 0, 1]) ∧
    ([1, 2, 0] : List Nat) ≠ [2, 0, 1] ∧
    (runOps c1Ops [] snInit).map (fun p => p.2.widgets.map (fun w => w.wid)) =
      some [2, 0, 1] := by
  refine ⟨by decide, by decide, by decide, by decide⟩

end StaticNB
